import Mathlib

/-!
Verification development for the korean-with-us-dashboard repository.

The repository is a React/TypeScript admin dashboard over an Express REST
API.  The spec documents an "Enrollment Engine" (status/payment lifecycle
plus schedule-capacity accounting) and a gallery reorder operation.  The
backend route handlers implementing these operations are not part of the
source tree we were given (only the Express route wiring and the frontend
callers are), so the engine and the reorder endpoint are modelled from the
spec, as marked on each definition.  The schedule form validation schema
(ScheduleForm.tsx) and the gallery drag-and-drop handler (Gallery.tsx) are
present in the source and are embedded directly from it.
-/

/-- Enrollment status enumeration: pending, approved, active, completed,
cancelled (spec §3, and the option list in EnrollmentDetail.tsx). -/
inductive EnrollStatus
  | pending
  | approved
  | active
  | completed
  | cancelled
deriving DecidableEq, Repr

/-- Payment status enumeration: unpaid, paid, refunded (spec §3, and the
option list in EnrollmentDetail.tsx). -/
inductive PaymentStatus
  | unpaid
  | paid
  | refunded
deriving DecidableEq, Repr

/-- Enrollment source enumeration (spec §3, and the option list in
EnrollmentForm.tsx). -/
inductive EnrollSource
  | admin
  | website
  | form
  | referral
  | offline
deriving DecidableEq, Repr

/-- Course record: the fields of the spec's Course relevant to the
enrollment engine (id, capacity, active flag). -/
structure Course where
  id : Nat
  capacity : Nat
  active : Bool
deriving DecidableEq, Repr

/-- Schedule record: id, parent course id, and optional capacity which
falls back to the course capacity (spec §3). -/
structure Schedule where
  id : Nat
  courseId : Nat
  capacity : Option Nat
deriving DecidableEq, Repr

/-- User record: surrogate id plus the unique email used for
lookup-or-create on enrollment submission (spec §3, §9). -/
structure UserRec where
  id : Nat
  email : String
deriving DecidableEq, Repr

/-- Enrollment record (spec §3). -/
structure Enrollment where
  id : Nat
  userId : Nat
  courseId : Nat
  scheduleId : Option Nat
  status : EnrollStatus
  paymentStatus : PaymentStatus
  source : EnrollSource
  notes : Option String
deriving DecidableEq, Repr

/-- The state owned by the relational store, as seen by the enrollment
engine: courses, schedules, users, enrollments, and the next surrogate ids
the store will hand out. -/
structure EngineState where
  courses : List Course
  schedules : List Schedule
  users : List UserRec
  enrollments : List Enrollment
  nextUserId : Nat
  nextEnrollmentId : Nat
deriving DecidableEq, Repr

instance {ε α : Type} [DecidableEq ε] [DecidableEq α] : DecidableEq (Except ε α) := fun a b =>
  match a, b with
  | .ok x, .ok y =>
      if h : x = y then isTrue (by rw [h])
      else isFalse (fun hh => h (by injection hh))
  | .error x, .error y =>
      if h : x = y then isTrue (by rw [h])
      else isFalse (fun hh => h (by injection hh))
  | .ok _, .error _ => isFalse (fun hh => Except.noConfusion hh)
  | .error _, .ok _ => isFalse (fun hh => Except.noConfusion hh)

/-- Error taxonomy of spec §7. -/
inductive EngineError
  | validationError
  | notFoundError
  | capacityExceededError
  | invalidStateError
deriving DecidableEq, Repr

/-- Look up a course by id. -/
def findCourse (st : EngineState) (cid : Nat) : Option Course :=
  st.courses.find? (fun c => decide (c.id = cid))

/-- Look up a schedule by id. -/
def findSchedule (st : EngineState) (sid : Nat) : Option Schedule :=
  st.schedules.find? (fun s => decide (s.id = sid))

/-- Look up an enrollment by id. -/
def findEnrollment (st : EngineState) (eid : Nat) : Option Enrollment :=
  st.enrollments.find? (fun e => decide (e.id = eid))

/-- An enrollment counts against schedule `sid` when it references that
schedule and is not cancelled (spec §3 invariant). -/
def refersTo (sid : Nat) (e : Enrollment) : Bool :=
  decide (e.scheduleId = some sid) && decide (¬ e.status = EnrollStatus.cancelled)

/-- Number of non-cancelled enrollments in `l` referencing schedule `sid`. -/
def countRef (l : List Enrollment) (sid : Nat) : Nat :=
  (l.filter (refersTo sid)).length

/-- Number of non-cancelled enrollments in the store referencing `sid`. -/
def nonCancelledCount (st : EngineState) (sid : Nat) : Nat :=
  countRef st.enrollments sid

/-- Effective capacity: schedule.capacity if set, else the parent course's
capacity (spec glossary). -/
def effectiveCapacity (s : Schedule) (c : Course) : Nat :=
  s.capacity.getD c.capacity

/-- Modelled from the spec: the engine's email well-formedness check
(`ValidationError` if email malformed).  The backend validator is not in
the source tree; the frontend gate (EnrollmentForm.tsx search guard)
requires the string to contain an `@`, which we take as the model:
the character list of the string contains `@`. -/
def validEmail (e : String) : Bool :=
  e.data.contains '@'

/-- Modelled from the spec: resolve an email to an existing user or create
one keyed on the unique email (spec §4.1 side effect, §9 upsert).  Returns
the possibly-extended state and the user's id. -/
def resolveUser (st : EngineState) (email : String) : EngineState × Nat :=
  match st.users.find? (fun u => decide (u.email = email)) with
  | some u => (st, u.id)
  | none =>
      ({ st with
          users := st.users ++ [⟨st.nextUserId, email⟩],
          nextUserId := st.nextUserId + 1 },
       st.nextUserId)

/-- Modelled from the spec: the insert performed by a successful Create —
resolve the user, then append a new enrollment with status=pending and
payment_status=unpaid (spec §4.1). -/
def insertEnrollment (st : EngineState) (email : String) (courseId : Nat)
    (scheduleId : Option Nat) (notes : Option String) (source : EnrollSource) :
    EngineState × Enrollment :=
  let r := resolveUser st email
  let e : Enrollment :=
    ⟨r.1.nextEnrollmentId, r.2, courseId, scheduleId,
     EnrollStatus.pending, PaymentStatus.unpaid, source, notes⟩
  ({ r.1 with
      enrollments := r.1.enrollments ++ [e],
      nextEnrollmentId := r.1.nextEnrollmentId + 1 },
   e)

/-- Modelled from the spec: Create(user_identity, course_id, schedule_id?,
notes?, source) (spec §4.1).  The backend controller is not in the source
tree.  Checks, in order: email well-formed (`ValidationError`), course
exists and is active (`NotFoundError`), schedule exists and belongs to the
course (`NotFoundError`), and — when a schedule is given — the capacity
check: fails with `CapacityExceededError` if the non-cancelled enrollment
count for the schedule is ≥ the effective capacity. -/
def createEnrollment (st : EngineState) (email : String) (courseId : Nat)
    (scheduleId : Option Nat) (notes : Option String) (source : EnrollSource) :
    Except EngineError (EngineState × Enrollment) :=
  if validEmail email = false then .error .validationError
  else
    match findCourse st courseId with
    | none => .error .notFoundError
    | some course =>
      if course.active = false then .error .notFoundError
      else
        match scheduleId with
        | none => .ok (insertEnrollment st email courseId none notes source)
        | some sid =>
          match findSchedule st sid with
          | none => .error .notFoundError
          | some sched =>
            if decide (¬ sched.courseId = courseId) then .error .notFoundError
            else if effectiveCapacity sched course ≤ nonCancelledCount st sid then
              .error .capacityExceededError
            else .ok (insertEnrollment st email courseId (some sid) notes source)

/-- The state after a Create call: the new state on success, the old state
unchanged on failure (each operation is one atomic transaction, spec §5). -/
def createStep (st : EngineState) (email : String) (courseId : Nat)
    (scheduleId : Option Nat) (notes : Option String) (source : EnrollSource) :
    EngineState :=
  match createEnrollment st email courseId scheduleId notes source with
  | .ok r => r.1
  | .error _ => st

/-- Modelled from the spec: Approve(enrollment_id) transitions
pending → approved and fails with `InvalidStateError` if the current
status is not pending (spec §4.1). -/
def approve (st : EngineState) (eid : Nat) : Except EngineError EngineState :=
  match findEnrollment st eid with
  | none => .error .notFoundError
  | some e =>
    if decide (¬ e.status = EnrollStatus.pending) then .error .invalidStateError
    else
      .ok { st with
              enrollments := st.enrollments.map
                (fun x => if x.id = eid then { x with status := EnrollStatus.approved } else x) }

/-- The state after an Approve call (old state unchanged on failure). -/
def approveStep (st : EngineState) (eid : Nat) : EngineState :=
  match approve st eid with
  | .ok st' => st'
  | .error _ => st

/-- Modelled from the spec: UpdateStatus(enrollment_id, new_status) —
arbitrary transition among the five statuses; no transition table forbids
any status→status move (spec §4.1, §9). -/
def updateStatus (st : EngineState) (eid : Nat) (s : EnrollStatus) :
    Except EngineError EngineState :=
  match findEnrollment st eid with
  | none => .error .notFoundError
  | some _ =>
      .ok { st with
              enrollments := st.enrollments.map
                (fun x => if x.id = eid then { x with status := s } else x) }

/-- The state after an UpdateStatus call (old state unchanged on failure). -/
def updateStatusStep (st : EngineState) (eid : Nat) (s : EnrollStatus) : EngineState :=
  match updateStatus st eid s with
  | .ok st' => st'
  | .error _ => st

/-- Modelled from the spec: UpdatePaymentStatus(enrollment_id, p) sets
payment_status among {unpaid, paid, refunded}, independent of status
(spec §4.1). -/
def updatePaymentStatus (st : EngineState) (eid : Nat) (p : PaymentStatus) :
    Except EngineError EngineState :=
  match findEnrollment st eid with
  | none => .error .notFoundError
  | some _ =>
      .ok { st with
              enrollments := st.enrollments.map
                (fun x => if x.id = eid then { x with paymentStatus := p } else x) }

/-- The capacity invariant of spec §3: for every schedule and its parent
course, the non-cancelled enrollment count referencing the schedule is at
most the effective capacity. -/
def capOk (st : EngineState) : Bool :=
  st.schedules.all fun s =>
    st.courses.all fun c =>
      if c.id = s.courseId then
        decide (nonCancelledCount st s.id ≤ effectiveCapacity s c)
      else true

/-- Well-formedness of the store's surrogate keys: course, schedule and
enrollment ids are pairwise distinct (primary keys, spec §6). -/
def wfIds (st : EngineState) : Prop :=
  (st.courses.map Course.id).Nodup ∧
  (st.schedules.map Schedule.id).Nodup ∧
  (st.enrollments.map Enrollment.id).Nodup

instance (st : EngineState) : Decidable (wfIds st) := by
  unfold wfIds; infer_instance

/-- A gallery item as exposed by the gallery API and rendered by
Gallery.tsx: id, image_url, caption and the dense 1-based sort_order. -/
structure GalleryItem where
  id : Nat
  sortOrder : Nat
  imageUrl : String
  caption : Option String
deriving DecidableEq, Repr

/-- Error raised by the gallery Reorder operation when the submitted id
set does not exactly match the existing items (spec §4.2). -/
inductive ReorderError
  | idSetMismatch
deriving DecidableEq, Repr

/-- Modelled from the spec: Reorder(ordered_list_of_ids) atomically
rewrites sort_order for every id in the given sequence to its 1-based
position, and rejects if the submitted ids do not exactly match the
existing items (spec §4.2).  The backend gallery route is not in the
source tree. -/
def reorderGallery (items : List GalleryItem) (ids : List Nat) :
    Except ReorderError (List GalleryItem) :=
  if ids.isPerm (items.map GalleryItem.id) then
    .ok (items.map fun it => { it with sortOrder := ids.indexOf it.id + 1 })
  else .error .idSetMismatch

/-- The gallery state after a Reorder call: the rewritten items on
success, the old items unchanged on failure (single transaction,
spec §5). -/
def applyReorder (items : List GalleryItem) (ids : List Nat) : List GalleryItem :=
  match reorderGallery items ids with
  | .ok out => out
  | .error _ => items

/-- One entry of the reorder request body built by Gallery.tsx
handleDrop: `{ id: item.id, sortOrder: index + 1 }`. -/
structure ReorderEntry where
  id : Nat
  sortOrder : Nat
deriving DecidableEq, Repr

/-- JavaScript Array.prototype.findIndex: the index of the first match,
or -1 when there is none (Gallery.tsx lines 51-52). -/
def jsFindIndex (p : GalleryItem → Bool) (l : List GalleryItem) : Int :=
  match l.findIdx? p with
  | some i => (i : Int)
  | none => -1

/-- JavaScript splice start-index normalisation: a negative start counts
from the end clamped at 0, a start past the end clamps to the length. -/
def spliceIndex (len : Nat) (i : Int) : Nat :=
  if i < 0 then ((len : Int) + i).toNat else min i.toNat len

/-- JavaScript `l.splice(i, 1)`: remove one element at (normalised)
index `i` (Gallery.tsx line 55). -/
def jsSpliceRemoveOne (l : List GalleryItem) (i : Int) : List GalleryItem :=
  l.take (spliceIndex l.length i) ++ l.drop (spliceIndex l.length i + 1)

/-- JavaScript `l.splice(i, 0, x)`: insert `x` at (normalised) index `i`
(Gallery.tsx line 57). -/
def jsSpliceInsert (l : List GalleryItem) (i : Int) (x : GalleryItem) : List GalleryItem :=
  l.take (spliceIndex l.length i) ++ x :: l.drop (spliceIndex l.length i)

/-- The Gallery.tsx handleDrop handler (lines 43-67), embedded as the
reorder request it issues: `none` when it returns without mutating
(no dragged item, or dropped on itself), otherwise `some` of the
`{id, sortOrder}` list it passes to the reorder mutation. -/
def handleDrop (items : List GalleryItem) (draggedItem : Option GalleryItem)
    (targetItem : GalleryItem) : Option (List ReorderEntry) :=
  match draggedItem with
  | none => none
  | some dragged =>
    if dragged.id = targetItem.id then none
    else
      let draggedIndex := jsFindIndex (fun it => decide (it.id = dragged.id)) items
      let targetIndex := jsFindIndex (fun it => decide (it.id = targetItem.id)) items
      let afterRemove := jsSpliceRemoveOne items draggedIndex
      let newItems := jsSpliceInsert afterRemove targetIndex dragged
      some (newItems.enum.map fun p => ⟨p.2.id, p.1 + 1⟩)

/-- Schedule status enumeration of ScheduleForm.tsx. -/
inductive ScheduleStatus
  | scheduled
  | cancelled
  | completed
deriving DecidableEq, Repr

/-- The fields validated by the zod scheduleSchema in ScheduleForm.tsx
(lines 7-23).  The datetime fields are the raw strings of the
datetime-local inputs. -/
structure ScheduleFormData where
  teacherId : Option Nat
  startTime : String
  endTime : String
  timezone : String
  capacity : Option Int
  location : Option String
  status : ScheduleStatus
deriving DecidableEq, Repr

/-- The zod scheduleSchema of ScheduleForm.tsx (lines 7-23):
startTime/endTime must be non-empty (`min(1)`), capacity when present
must be ≥ 0, and the refinement requires `new Date(endTime) >
new Date(startTime)` whenever both strings are truthy (non-empty).
The JavaScript Date comparison is abstracted by a timestamp valuation
`dateVal` on strings. -/
def scheduleSchemaAccepts (dateVal : String → Int) (d : ScheduleFormData) : Bool :=
  decide (1 ≤ d.startTime.length) &&
  decide (1 ≤ d.endTime.length) &&
  (match d.capacity with
   | some c => decide (0 ≤ c)
   | none => true) &&
  (if !d.startTime.isEmpty && !d.endTime.isEmpty then
     decide (dateVal d.startTime < dateVal d.endTime)
   else true)

/-- A concrete store: one active course of capacity 1, one schedule for it
with no capacity override (so effective capacity 1), no users, no
enrollments. -/
def cexSt0 : EngineState :=
  { courses := [⟨1, 1, true⟩],
    schedules := [⟨1, 1, none⟩],
    users := [],
    enrollments := [],
    nextUserId := 1,
    nextEnrollmentId := 1 }

/-- The enrollment created by the first Create call on `cexSt0`. -/
def cexE1 : Enrollment :=
  ⟨1, 1, 1, some 1, EnrollStatus.pending, PaymentStatus.unpaid, EnrollSource.admin, none⟩

/-- The enrollment created by the second Create call (after the first was
cancelled). -/
def cexE2 : Enrollment :=
  ⟨2, 2, 1, some 1, EnrollStatus.pending, PaymentStatus.unpaid, EnrollSource.admin, none⟩

/-- State after Create("a@b", course 1, schedule 1). -/
def cexSt1 : EngineState := createStep cexSt0 "a@b" 1 (some 1) none EnrollSource.admin

/-- State after additionally cancelling enrollment 1 via UpdateStatus. -/
def cexSt2 : EngineState := updateStatusStep cexSt1 1 EnrollStatus.cancelled

/-- State after additionally Create("c@d", course 1, schedule 1), which
passes the capacity check because enrollment 1 is cancelled. -/
def cexSt3 : EngineState := createStep cexSt2 "c@d" 1 (some 1) none EnrollSource.admin

/-- State after additionally reviving enrollment 1 via
UpdateStatus(1, pending): two non-cancelled enrollments now reference
schedule 1 whose effective capacity is 1. -/
def cexSt4 : EngineState := updateStatusStep cexSt3 1 EnrollStatus.pending

/-- State after approving enrollment 1 in `cexSt1`. -/
def cexSt1a : EngineState := approveStep cexSt1 1

theorem countRef_eq_countP (l : List Enrollment) (sid : Nat) :
    countRef l sid = l.countP (refersTo sid) :=
  (List.countP_eq_length_filter _ _).symm

theorem countRef_append (l : List Enrollment) (e : Enrollment) (sid : Nat) :
    countRef (l ++ [e]) sid = countRef l sid + (if refersTo sid e then 1 else 0) := by
  rw [countRef_eq_countP, countRef_eq_countP, List.countP_append]
  cases h : refersTo sid e <;> simp [List.countP, List.countP.go, h]

theorem countRef_map_le (l : List Enrollment) (f : Enrollment → Enrollment) (sid : Nat)
    (h : ∀ e ∈ l, refersTo sid (f e) = true → refersTo sid e = true) :
    countRef (l.map f) sid ≤ countRef l sid := by
  rw [countRef_eq_countP, countRef_eq_countP, List.countP_map]
  exact List.countP_mono_left h

theorem countRef_map_eq (l : List Enrollment) (f : Enrollment → Enrollment) (sid : Nat)
    (h : ∀ e ∈ l, refersTo sid (f e) = refersTo sid e) :
    countRef (l.map f) sid = countRef l sid := by
  rw [countRef_eq_countP, countRef_eq_countP, List.countP_map]
  exact List.countP_congr fun x hx => by
    simp only [Function.comp_apply, h x hx]

theorem capOk_iff (st : EngineState) :
    capOk st = true ↔
      ∀ s ∈ st.schedules, ∀ c ∈ st.courses,
        c.id = s.courseId → nonCancelledCount st s.id ≤ effectiveCapacity s c := by
  simp only [capOk, List.all_eq_true]
  constructor
  · intro h s hs c hc hEq
    have := h s hs c hc
    rw [if_pos hEq] at this
    exact of_decide_eq_true this
  · intro h s hs c hc
    by_cases hEq : c.id = s.courseId
    · rw [if_pos hEq]
      exact decide_eq_true (h s hs c hc hEq)
    · rw [if_neg hEq]

theorem resolveUser_frame (st : EngineState) (email : String) :
    (resolveUser st email).1.enrollments = st.enrollments ∧
    (resolveUser st email).1.courses = st.courses ∧
    (resolveUser st email).1.schedules = st.schedules := by
  unfold resolveUser
  cases st.users.find? (fun u => decide (u.email = email)) <;> simp

theorem capOk_of_count_le (st st' : EngineState)
    (hsch : st'.schedules = st.schedules) (hcrs : st'.courses = st.courses)
    (hcount : ∀ sid, countRef st'.enrollments sid ≤ countRef st.enrollments sid)
    (hcap : capOk st = true) : capOk st' = true := by
  rw [capOk_iff] at hcap ⊢
  intro s hs c hc hEq
  rw [hsch] at hs
  rw [hcrs] at hc
  exact le_trans (hcount s.id) (hcap s hs c hc hEq)

theorem mem_eq_of_nodup_ids {l : List Enrollment} (h : (l.map Enrollment.id).Nodup)
    {a b : Enrollment} (ha : a ∈ l) (hb : b ∈ l) (hid : a.id = b.id) : a = b :=
  List.inj_on_of_nodup_map h ha hb hid

theorem findEnrollment_map_update (l : List Enrollment) (eid : Nat)
    (g : Enrollment → Enrollment) (hg : ∀ x, (g x).id = x.id) :
    (l.map (fun x => if x.id = eid then g x else x)).find? (fun x => decide (x.id = eid))
      = (l.find? (fun x => decide (x.id = eid))).map
          (fun x => if x.id = eid then g x else x) := by
  induction l with
  | nil => rfl
  | cons a t ih =>
    by_cases ha : a.id = eid
    · rw [List.map_cons,
        List.find?_cons_of_pos _ (by simp [ha, hg]),
        List.find?_cons_of_pos _ (by simp [ha]),
        Option.map_some']
    · rw [List.map_cons,
        List.find?_cons_of_neg _ (by simp [ha, hg]),
        List.find?_cons_of_neg _ (by simp [ha])]
      exact ih

theorem insertEnrollment_spec (st : EngineState) (email : String) (cid : Nat)
    (sidOpt : Option Nat) (notes : Option String) (src : EnrollSource) :
    (insertEnrollment st email cid sidOpt notes src).2.scheduleId = sidOpt ∧
    (insertEnrollment st email cid sidOpt notes src).2.status = EnrollStatus.pending ∧
    (insertEnrollment st email cid sidOpt notes src).2.paymentStatus = PaymentStatus.unpaid ∧
    (insertEnrollment st email cid sidOpt notes src).1.enrollments
      = st.enrollments ++ [(insertEnrollment st email cid sidOpt notes src).2] ∧
    (insertEnrollment st email cid sidOpt notes src).1.courses = st.courses ∧
    (insertEnrollment st email cid sidOpt notes src).1.schedules = st.schedules := by
  obtain ⟨h1, h2, h3⟩ := resolveUser_frame st email
  unfold insertEnrollment
  simp [h1, h2, h3]

theorem createEnrollment_ok {st : EngineState} {email : String} {cid : Nat}
    {sidOpt : Option Nat} {notes : Option String} {src : EnrollSource}
    {st' : EngineState} {e : Enrollment}
    (h : createEnrollment st email cid sidOpt notes src = .ok (st', e)) :
    e.scheduleId = sidOpt ∧
    e.status = EnrollStatus.pending ∧
    e.paymentStatus = PaymentStatus.unpaid ∧
    st'.enrollments = st.enrollments ++ [e] ∧
    st'.courses = st.courses ∧
    st'.schedules = st.schedules ∧
    ∀ sid, sidOpt = some sid →
      ∃ course sched,
        findCourse st cid = some course ∧
        findSchedule st sid = some sched ∧
        sched.courseId = cid ∧
        nonCancelledCount st sid < effectiveCapacity sched course := by
  unfold createEnrollment at h
  split at h
  · simp at h
  split at h
  · simp at h
  next course hc =>
  split at h
  · simp at h
  next hact =>
  split at h
  · -- no schedule requested
    rw [Except.ok.injEq] at h
    have hst : st' = (insertEnrollment st email cid none notes src).1 := by rw [h]
    have he : e = (insertEnrollment st email cid none notes src).2 := by rw [h]
    subst hst
    subst he
    obtain ⟨p1, p2, p3, p4, p5, p6⟩ := insertEnrollment_spec st email cid none notes src
    exact ⟨p1, p2, p3, p4, p5, p6, fun sid hsid => by simp at hsid⟩
  next sid =>
  split at h
  · simp at h
  next sched hsched =>
  split at h
  · simp at h
  next hbel =>
  split at h
  · simp at h
  next hcapcheck =>
  rw [Except.ok.injEq] at h
  have hst : st' = (insertEnrollment st email cid (some sid) notes src).1 := by rw [h]
  have he : e = (insertEnrollment st email cid (some sid) notes src).2 := by rw [h]
  subst hst
  subst he
  obtain ⟨p1, p2, p3, p4, p5, p6⟩ := insertEnrollment_spec st email cid (some sid) notes src
  refine ⟨p1, p2, p3, p4, p5, p6, fun sid' hsid' => ?_⟩
  obtain rfl : sid = sid' := by injection hsid'
  have hbel' : sched.courseId = cid := by
    by_contra hne
    exact hbel (decide_eq_true hne)
  exact ⟨course, sched, hc, hsched, hbel', Nat.lt_of_not_le hcapcheck⟩

theorem refersTo_of_scheduleId_ne {sid : Nat} {e : Enrollment}
    (h : ¬ e.scheduleId = some sid) : refersTo sid e = false := by
  simp [refersTo, h]

theorem findCourse_some {st : EngineState} {cid : Nat} {c : Course}
    (h : findCourse st cid = some c) : c ∈ st.courses ∧ c.id = cid := by
  unfold findCourse at h
  exact ⟨List.mem_of_find?_eq_some h, by simpa using List.find?_some h⟩

theorem findSchedule_some {st : EngineState} {sid : Nat} {s : Schedule}
    (h : findSchedule st sid = some s) : s ∈ st.schedules ∧ s.id = sid := by
  unfold findSchedule at h
  exact ⟨List.mem_of_find?_eq_some h, by simpa using List.find?_some h⟩

theorem findEnrollment_some {st : EngineState} {eid : Nat} {e : Enrollment}
    (h : findEnrollment st eid = some e) : e ∈ st.enrollments ∧ e.id = eid := by
  unfold findEnrollment at h
  exact ⟨List.mem_of_find?_eq_some h, by simpa using List.find?_some h⟩

theorem create_preserves_capOk {st : EngineState} {email : String} {cid : Nat}
    {sidOpt : Option Nat} {notes : Option String} {src : EnrollSource}
    {st' : EngineState} {e : Enrollment}
    (hwfS : (st.schedules.map Schedule.id).Nodup)
    (hwfC : (st.courses.map Course.id).Nodup)
    (hcap : capOk st = true)
    (h : createEnrollment st email cid sidOpt notes src = .ok (st', e)) :
    capOk st' = true := by
  obtain ⟨hesid, hest, _, henr, hcrs, hsch, hcapf⟩ := createEnrollment_ok h
  rw [capOk_iff] at hcap ⊢
  intro s hs c hc hEq
  rw [hsch] at hs
  rw [hcrs] at hc
  have hbase := hcap s hs c hc hEq
  show countRef st'.enrollments s.id ≤ effectiveCapacity s c
  rw [henr, countRef_append]
  cases sidOpt with
  | none =>
    rw [refersTo_of_scheduleId_ne (by rw [hesid]; simp)]
    simpa using hbase
  | some sid =>
    obtain ⟨course, sched, hfc, hfs, hbel, hlt⟩ := hcapf sid rfl
    by_cases hsid : s.id = sid
    · subst hsid
      obtain ⟨hsmem, hsid'⟩ := findSchedule_some hfs
      have hseq : s = sched := List.inj_on_of_nodup_map hwfS hs hsmem hsid'.symm
      obtain ⟨hcmem, hcid'⟩ := findCourse_some hfc
      have hceq : c = course := by
        apply List.inj_on_of_nodup_map hwfC hc hcmem
        rw [hcid', hEq, hseq, hbel]
      have hre : refersTo s.id e = true := by
        simp [refersTo, hesid, hest]
      rw [hre]
      simp only [if_pos rfl]
      rw [← hseq, ← hceq] at hlt
      exact Nat.succ_le_of_lt hlt
    · have : refersTo s.id e = false := by
        rw [refersTo_of_scheduleId_ne]
        rw [hesid]
        simp
        intro hcontra
        exact hsid hcontra.symm
      rw [this]
      simpa using hbase

theorem approve_ok {st : EngineState} {eid : Nat} {st' : EngineState}
    (h : approve st eid = .ok st') :
    ∃ e, findEnrollment st eid = some e ∧ e.status = EnrollStatus.pending ∧
      st' = { st with
                enrollments := st.enrollments.map
                  (fun x => if x.id = eid then { x with status := EnrollStatus.approved } else x) } := by
  unfold approve at h
  split at h
  · simp at h
  next e hfind =>
  split at h
  · simp at h
  next hpend =>
  rw [Except.ok.injEq] at h
  refine ⟨e, hfind, ?_, h.symm⟩
  by_contra hne
  exact hpend (decide_eq_true hne)

theorem approve_preserves_capOk {st : EngineState} {eid : Nat} {st' : EngineState}
    (hwfE : (st.enrollments.map Enrollment.id).Nodup)
    (hcap : capOk st = true)
    (h : approve st eid = .ok st') : capOk st' = true := by
  obtain ⟨e, hfind, hpend, rfl⟩ := approve_ok h
  obtain ⟨hmem, hid⟩ := findEnrollment_some hfind
  refine capOk_of_count_le st _ rfl rfl ?_ hcap
  intro sid
  apply le_of_eq
  apply countRef_map_eq
  intro x hx
  by_cases hxid : x.id = eid
  · have hxe : x = e := List.inj_on_of_nodup_map hwfE hx hmem (hxid.trans hid.symm)
    subst hxe
    rw [if_pos hxid]
    simp [refersTo, hpend]
  · rw [if_neg hxid]

theorem updateStatus_ok {st : EngineState} {eid : Nat} {s : EnrollStatus}
    {st' : EngineState} (h : updateStatus st eid s = .ok st') :
    ∃ e, findEnrollment st eid = some e ∧
      st' = { st with
                enrollments := st.enrollments.map
                  (fun x => if x.id = eid then { x with status := s } else x) } := by
  unfold updateStatus at h
  split at h
  · simp at h
  next e hfind =>
  rw [Except.ok.injEq] at h
  exact ⟨e, hfind, h.symm⟩

theorem updateStatus_preserves_capOk {st : EngineState} {eid : Nat}
    {s : EnrollStatus} {st' : EngineState} {e : Enrollment}
    (hwfE : (st.enrollments.map Enrollment.id).Nodup)
    (hfind : findEnrollment st eid = some e)
    (hnc : e.status = EnrollStatus.cancelled → s = EnrollStatus.cancelled)
    (hcap : capOk st = true)
    (h : updateStatus st eid s = .ok st') : capOk st' = true := by
  obtain ⟨e0, hfind0, rfl⟩ := updateStatus_ok h
  have he0 : e0 = e := by rw [hfind0] at hfind; injection hfind
  obtain ⟨hmem, hid⟩ := findEnrollment_some hfind0
  refine capOk_of_count_le st _ rfl rfl ?_ hcap
  intro sid
  apply countRef_map_le
  intro x hx hrx
  by_cases hxid : x.id = eid
  · have hxe : x = e0 := List.inj_on_of_nodup_map hwfE hx hmem (hxid.trans hid.symm)
    subst hxe
    rw [if_pos hxid] at hrx
    simp only [refersTo, Bool.and_eq_true, decide_eq_true_eq] at hrx ⊢
    refine ⟨hrx.1, fun hxc => ?_⟩
    exact hrx.2 (hnc (by rw [← he0]; exact hxc))
  · rw [if_neg hxid] at hrx
    exact hrx

theorem updatePaymentStatus_ok {st : EngineState} {eid : Nat} {p : PaymentStatus}
    {st' : EngineState} (h : updatePaymentStatus st eid p = .ok st') :
    ∃ e, findEnrollment st eid = some e ∧
      st' = { st with
                enrollments := st.enrollments.map
                  (fun x => if x.id = eid then { x with paymentStatus := p } else x) } := by
  unfold updatePaymentStatus at h
  split at h
  · simp at h
  next e hfind =>
  rw [Except.ok.injEq] at h
  exact ⟨e, hfind, h.symm⟩

theorem updatePaymentStatus_preserves_capOk {st : EngineState} {eid : Nat}
    {p : PaymentStatus} {st' : EngineState}
    (hcap : capOk st = true)
    (h : updatePaymentStatus st eid p = .ok st') : capOk st' = true := by
  obtain ⟨e, hfind, rfl⟩ := updatePaymentStatus_ok h
  refine capOk_of_count_le st _ rfl rfl ?_ hcap
  intro sid
  apply le_of_eq
  apply countRef_map_eq
  intro x hx
  by_cases hxid : x.id = eid
  · rw [if_pos hxid]
    simp [refersTo]
  · rw [if_neg hxid]

/-- C1 (counterexample): the claim that every Enrollment Engine operation
preserves the schedule-capacity invariant is false — UpdateStatus can
revive a cancelled enrollment on a full schedule.  Starting from a store
with one active course of capacity 1 and one schedule with no capacity
override, the trace Create → UpdateStatus(cancelled) → Create →
UpdateStatus(pending) reaches a state in which schedule 1 has 2
non-cancelled enrollments against an effective capacity of 1. -/
theorem capacity_invariant_not_preserved_cex :
    createEnrollment cexSt0 "a@b" 1 (some 1) none EnrollSource.admin = .ok (cexSt1, cexE1) ∧
    updateStatus cexSt1 1 EnrollStatus.cancelled = .ok cexSt2 ∧
    createEnrollment cexSt2 "c@d" 1 (some 1) none EnrollSource.admin = .ok (cexSt3, cexE2) ∧
    capOk cexSt3 = true ∧
    updateStatus cexSt3 1 EnrollStatus.pending = .ok cexSt4 ∧
    capOk cexSt4 = false ∧
    nonCancelledCount cexSt4 1 = 2 ∧
    effectiveCapacity ⟨1, 1, none⟩ ⟨1, 1, true⟩ = 1 := by
  refine ⟨by decide, by decide, by decide, by decide, by decide, by decide, by decide, by decide⟩

/-- C1 (amended): in a store with duplicate-free ids satisfying the
capacity invariant, Create, Approve and UpdatePaymentStatus preserve the
invariant, and UpdateStatus preserves it whenever it does not turn a
cancelled enrollment into a non-cancelled one (the counterexample shows
that un-cancelling may exceed the capacity, so the claim's unrestricted
form fails for UpdateStatus). -/
theorem capacity_invariant_preservation (st : EngineState)
    (hwf : wfIds st) (hcap : capOk st = true) :
    (∀ email cid sidOpt notes src st' e,
        createEnrollment st email cid sidOpt notes src = .ok (st', e) →
        capOk st' = true) ∧
    (∀ eid st', approve st eid = .ok st' → capOk st' = true) ∧
    (∀ eid p st', updatePaymentStatus st eid p = .ok st' → capOk st' = true) ∧
    (∀ eid s st' e, findEnrollment st eid = some e →
        (e.status = EnrollStatus.cancelled → s = EnrollStatus.cancelled) →
        updateStatus st eid s = .ok st' → capOk st' = true) := by
  obtain ⟨hwfC, hwfS, hwfE⟩ := hwf
  refine ⟨?_, ?_, ?_, ?_⟩
  · intro email cid sidOpt notes src st' e h
    exact create_preserves_capOk hwfS hwfC hcap h
  · intro eid st' h
    exact approve_preserves_capOk hwfE hcap h
  · intro eid p st' h
    exact updatePaymentStatus_preserves_capOk hcap h
  · intro eid s st' e hfind hnc h
    exact updateStatus_preserves_capOk hwfE hfind hnc hcap h

/-- C1 (witness): the amended preservation theorem applied at the concrete
store `cexSt0` and the first Create call of the counterexample trace. -/
theorem capacity_invariant_preservation_witness : capOk cexSt1 = true :=
  (capacity_invariant_preservation cexSt0 (by decide) (by decide)).1
    "a@b" 1 (some 1) none EnrollSource.admin cexSt1 cexE1 (by decide)

/-- C2: for a Create call with a well-formed email, an existing active
course, and an existing schedule belonging to that course: if the count
of non-cancelled enrollments for the schedule is at least the effective
capacity (schedule.capacity if set, else the course's capacity) the call
fails with CapacityExceededError and leaves the store unchanged (no
enrollment inserted); if the count is strictly below the effective
capacity the capacity check passes and the call succeeds. -/
theorem create_capacity_check (st : EngineState) (email : String) (cid sid : Nat)
    (notes : Option String) (src : EnrollSource) (course : Course) (sched : Schedule)
    (hem : validEmail email = true)
    (hc : findCourse st cid = some course) (hact : course.active = true)
    (hs : findSchedule st sid = some sched) (hbel : sched.courseId = cid) :
    (effectiveCapacity sched course ≤ nonCancelledCount st sid →
        createEnrollment st email cid (some sid) notes src = .error .capacityExceededError ∧
        createStep st email cid (some sid) notes src = st) ∧
    (nonCancelledCount st sid < effectiveCapacity sched course →
        ∃ st' e, createEnrollment st email cid (some sid) notes src = .ok (st', e)) := by
  have hform : ∀ r, createEnrollment st email cid (some sid) notes src = r →
      (if effectiveCapacity sched course ≤ nonCancelledCount st sid then
        (.error .capacityExceededError : Except EngineError (EngineState × Enrollment))
      else .ok (insertEnrollment st email cid (some sid) notes src)) = r := by
    intro r hr
    rw [← hr]
    unfold createEnrollment
    simp [hem, hc, hact, hs, hbel]
  have hmain := hform _ rfl
  constructor
  · intro hge
    rw [if_pos hge] at hmain
    refine ⟨hmain.symm, ?_⟩
    unfold createStep
    rw [← hmain]
  · intro hlt
    rw [if_neg (Nat.not_le_of_lt hlt)] at hmain
    exact ⟨_, _, hmain.symm⟩

/-- C2 (witness): at the concrete store `cexSt0` (course 1 active with
capacity 1, schedule 1, no enrollments) the capacity check passes and the
Create call succeeds. -/
theorem create_capacity_check_witness :
    ∃ st' e, createEnrollment cexSt0 "a@b" 1 (some 1) none EnrollSource.admin = .ok (st', e) :=
  (create_capacity_check cexSt0 "a@b" 1 1 none EnrollSource.admin ⟨1, 1, true⟩ ⟨1, 1, none⟩
    (by decide) (by decide) (by decide) (by decide) (by decide)).2 (by decide)

/-- C3: every successful Create yields an enrollment whose status is
pending and whose payment status is unpaid, appended to the store's
enrollment list. -/
theorem create_initial_status (st : EngineState) (email : String) (cid : Nat)
    (sidOpt : Option Nat) (notes : Option String) (src : EnrollSource)
    (st' : EngineState) (e : Enrollment)
    (h : createEnrollment st email cid sidOpt notes src = .ok (st', e)) :
    e.status = EnrollStatus.pending ∧
    e.paymentStatus = PaymentStatus.unpaid ∧
    st'.enrollments = st.enrollments ++ [e] := by
  obtain ⟨_, h2, h3, h4, _, _, _⟩ := createEnrollment_ok h
  exact ⟨h2, h3, h4⟩

/-- C3 (witness): the first Create call of the concrete trace yields
enrollment `cexE1` with status pending and payment status unpaid. -/
theorem create_initial_status_witness :
    cexE1.status = EnrollStatus.pending ∧
    cexE1.paymentStatus = PaymentStatus.unpaid ∧
    cexSt1.enrollments = cexSt0.enrollments ++ [cexE1] :=
  create_initial_status cexSt0 "a@b" 1 (some 1) none EnrollSource.admin cexSt1 cexE1 (by decide)

/-- C4: Approve on an enrollment whose status is not pending fails with
InvalidStateError and leaves the store unchanged; Approve on a pending
enrollment succeeds and sets its status to approved, and a second Approve
on the now-approved enrollment fails with InvalidStateError rather than
silently succeeding. -/
theorem approve_semantics (st : EngineState) (eid : Nat) (e : Enrollment)
    (hfind : findEnrollment st eid = some e) :
    (¬ e.status = EnrollStatus.pending →
        approve st eid = .error .invalidStateError ∧ approveStep st eid = st) ∧
    (e.status = EnrollStatus.pending →
        ∃ st', approve st eid = .ok st' ∧
          findEnrollment st' eid = some { e with status := EnrollStatus.approved } ∧
          approve st' eid = .error .invalidStateError ∧
          approveStep st' eid = st') := by
  have hid : e.id = eid := (findEnrollment_some hfind).2
  constructor
  · intro hnp
    have herr : approve st eid = .error .invalidStateError := by
      unfold approve
      rw [hfind]
      simp [hnp]
    refine ⟨herr, ?_⟩
    unfold approveStep
    rw [herr]
  · intro hp
    have hok : approve st eid =
        .ok { st with
                enrollments := st.enrollments.map
                  (fun x => if x.id = eid then { x with status := EnrollStatus.approved } else x) } := by
      unfold approve
      rw [hfind]
      simp [hp]
    have hfind' : findEnrollment
        { st with
            enrollments := st.enrollments.map
              (fun x => if x.id = eid then { x with status := EnrollStatus.approved } else x) }
        eid = some { e with status := EnrollStatus.approved } := by
      unfold findEnrollment at hfind ⊢
      have := findEnrollment_map_update st.enrollments eid
        (fun x => { x with status := EnrollStatus.approved }) (fun x => rfl)
      rw [this, hfind, Option.map_some', if_pos hid]
    have herr' : approve
        { st with
            enrollments := st.enrollments.map
              (fun x => if x.id = eid then { x with status := EnrollStatus.approved } else x) }
        eid = .error .invalidStateError := by
      unfold approve
      rw [hfind']
      simp
    refine ⟨_, hok, hfind', herr', ?_⟩
    unfold approveStep
    rw [herr']

/-- C4 (witness): in the concrete state `cexSt1` enrollment 1 is pending,
and Approve succeeds, records status approved, and a repeated Approve
fails with InvalidStateError. -/
theorem approve_semantics_witness :
    ∃ st', approve cexSt1 1 = .ok st' ∧
      findEnrollment st' 1 = some { cexE1 with status := EnrollStatus.approved } ∧
      approve st' 1 = .error .invalidStateError ∧
      approveStep st' 1 = st' :=
  (approve_semantics cexSt1 1 cexE1 (by decide)).2 (by decide)

/-- C5: UpdateStatus succeeds on every existing enrollment for every one
of the five target statuses, setting the enrollment's status to the
requested value regardless of its current status — no status-to-status
move is forbidden. -/
theorem updateStatus_unrestricted (st : EngineState) (eid : Nat) (e : Enrollment)
    (hfind : findEnrollment st eid = some e) (s : EnrollStatus) :
    ∃ st', updateStatus st eid s = .ok st' ∧
      findEnrollment st' eid = some { e with status := s } := by
  have hid : e.id = eid := (findEnrollment_some hfind).2
  have hok : updateStatus st eid s =
      .ok { st with
              enrollments := st.enrollments.map
                (fun x => if x.id = eid then { x with status := s } else x) } := by
    unfold updateStatus
    rw [hfind]
  refine ⟨_, hok, ?_⟩
  show findEnrollment _ eid = _
  unfold findEnrollment at hfind ⊢
  have := findEnrollment_map_update st.enrollments eid
    (fun x => { x with status := s }) (fun x => rfl)
  rw [this, hfind, Option.map_some', if_pos hid]

/-- C5 (witness): in `cexSt3` enrollment 2 is pending and UpdateStatus
moves it directly to completed, a transition no table forbids. -/
theorem updateStatus_unrestricted_witness :
    ∃ st', updateStatus cexSt3 2 EnrollStatus.completed = .ok st' ∧
      findEnrollment st' 2 = some { cexE2 with status := EnrollStatus.completed } :=
  updateStatus_unrestricted cexSt3 2 cexE2 (by decide) EnrollStatus.completed

/-- C6: UpdatePaymentStatus succeeds on every existing enrollment for
every target payment status, replacing only the paymentStatus field of
that enrollment (its status and every other field are unchanged, as is
every other table and every other enrollment). -/
theorem updatePaymentStatus_frame (st : EngineState) (eid : Nat) (e : Enrollment)
    (hfind : findEnrollment st eid = some e) (p : PaymentStatus) :
    ∃ st', updatePaymentStatus st eid p = .ok st' ∧
      findEnrollment st' eid = some { e with paymentStatus := p } ∧
      st'.courses = st.courses ∧ st'.schedules = st.schedules ∧ st'.users = st.users ∧
      ∀ x ∈ st.enrollments, ¬ x.id = eid → x ∈ st'.enrollments := by
  have hid : e.id = eid := (findEnrollment_some hfind).2
  have hok : updatePaymentStatus st eid p =
      .ok { st with
              enrollments := st.enrollments.map
                (fun x => if x.id = eid then { x with paymentStatus := p } else x) } := by
    unfold updatePaymentStatus
    rw [hfind]
  refine ⟨_, hok, ?_, rfl, rfl, rfl, ?_⟩
  · show findEnrollment _ eid = _
    unfold findEnrollment at hfind ⊢
    have := findEnrollment_map_update st.enrollments eid
      (fun x => { x with paymentStatus := p }) (fun x => rfl)
    rw [this, hfind, Option.map_some', if_pos hid]
  · intro x hx hne
    refine List.mem_map.mpr ⟨x, hx, ?_⟩
    rw [if_neg hne]

/-- C6 (witness): in `cexSt1a` enrollment 1 is approved, and
UpdatePaymentStatus('paid') sets payment status to paid while the stored
enrollment keeps status approved. -/
theorem updatePaymentStatus_frame_witness :
    ∃ st', updatePaymentStatus cexSt1a 1 PaymentStatus.paid = .ok st' ∧
      findEnrollment st' 1 =
        some { { cexE1 with status := EnrollStatus.approved } with
                 paymentStatus := PaymentStatus.paid } ∧
      st'.courses = cexSt1a.courses ∧ st'.schedules = cexSt1a.schedules ∧
      st'.users = cexSt1a.users ∧
      ∀ x ∈ cexSt1a.enrollments, ¬ x.id = 1 → x ∈ st'.enrollments :=
  updatePaymentStatus_frame cexSt1a 1 { cexE1 with status := EnrollStatus.approved }
    (by decide) PaymentStatus.paid

/-- C7: under any timestamp valuation of the datetime strings, a schedule
submission accepted by the zod scheduleSchema has its end time strictly
later than its start time, and a submission with both times supplied whose
end time is not strictly after its start time is rejected.  (Both time
fields are required by the schema, so every accepted submission has both
supplied.) -/
theorem schedule_end_after_start (dateVal : String → Int) (d : ScheduleFormData) :
    (scheduleSchemaAccepts dateVal d = true →
        dateVal d.startTime < dateVal d.endTime) ∧
    (¬ dateVal d.startTime < dateVal d.endTime →
        scheduleSchemaAccepts dateVal d = false) := by
  constructor
  · intro h
    unfold scheduleSchemaAccepts at h
    simp only [Bool.and_eq_true, decide_eq_true_eq] at h
    obtain ⟨⟨⟨hs, he⟩, _⟩, hr⟩ := h
    have hsne : d.startTime.isEmpty = false := by
      cases hh : d.startTime.isEmpty
      · rfl
      · rw [(String.isEmpty_iff _).mp hh] at hs
        exact absurd hs (by decide)
    have hene : d.endTime.isEmpty = false := by
      cases hh : d.endTime.isEmpty
      · rfl
      · rw [(String.isEmpty_iff _).mp hh] at he
        exact absurd he (by decide)
    rw [hsne, hene] at hr
    simp at hr
    exact hr
  · intro hnlt
    unfold scheduleSchemaAccepts
    by_cases hse : d.startTime.isEmpty = true
    · have hlen : ¬ 1 ≤ d.startTime.length := by
        rw [(String.isEmpty_iff _).mp hse]
        decide
      simp [hlen]
    · by_cases hee : d.endTime.isEmpty = true
      · have hlen : ¬ 1 ≤ d.endTime.length := by
          rw [(String.isEmpty_iff _).mp hee]
          decide
        simp [hlen]
      · have hse' : d.startTime.isEmpty = false := by
          cases hh : d.startTime.isEmpty
          · rfl
          · exact absurd hh hse
        have hee' : d.endTime.isEmpty = false := by
          cases hh : d.endTime.isEmpty
          · rfl
          · exact absurd hh hee
        simp [hse', hee', hnlt]

/-- C7 (witness): with the string-length valuation, the submission with
start "a" and end "bb" is accepted and its end is strictly later. -/
theorem schedule_end_after_start_witness :
    scheduleSchemaAccepts (fun s => (s.length : Int))
        ⟨none, "a", "bb", "UTC", none, none, ScheduleStatus.scheduled⟩ = true ∧
      ((fun s => (s.length : Int)) "a" : Int) < (fun s => (s.length : Int)) "bb" :=
  ⟨by decide,
   (schedule_end_after_start (fun s => (s.length : Int))
      ⟨none, "a", "bb", "UTC", none, none, ScheduleStatus.scheduled⟩).1 (by decide)⟩

/-- C10: the Gallery drag-and-drop handler issues no reorder request when
no item is being dragged or when the dragged item is dropped on itself,
and whenever it does issue a request a dragged item exists and differs
from the target. -/
theorem handleDrop_guard (items : List GalleryItem) (draggedItem : Option GalleryItem)
    (targetItem : GalleryItem) :
    (draggedItem = none → handleDrop items draggedItem targetItem = none) ∧
    (∀ d, draggedItem = some d → d.id = targetItem.id →
        handleDrop items draggedItem targetItem = none) ∧
    (∀ req, handleDrop items draggedItem targetItem = some req →
        ∃ d, draggedItem = some d ∧ ¬ d.id = targetItem.id) := by
  refine ⟨?_, ?_, ?_⟩
  · intro h
    rw [h]
    rfl
  · intro d hd heq
    rw [hd]
    unfold handleDrop
    simp [heq]
  · intro req hreq
    cases hd : draggedItem with
    | none =>
      rw [hd] at hreq
      simp [handleDrop] at hreq
    | some d =>
      refine ⟨d, rfl, ?_⟩
      intro heq
      rw [hd] at hreq
      unfold handleDrop at hreq
      simp [heq] at hreq

/-- C10 (witness): with no item being dragged, the handler ignores the
drop on a concrete target. -/
theorem handleDrop_guard_witness :
    handleDrop [⟨1, 1, "u", none⟩] none ⟨1, 1, "u", none⟩ = none :=
  (handleDrop_guard [⟨1, 1, "u", none⟩] none ⟨1, 1, "u", none⟩).1 rfl

theorem nodup_map_indexOf (l : List Nat) (h : l.Nodup) :
    l.map (fun a => l.indexOf a) = List.range l.length := by
  apply List.ext_getElem
  · simp
  · intro i h1 h2
    rw [List.getElem_map, List.getElem_range]
    exact List.indexOf_getElem h i (by simpa using h1)

/-- C8: when the submitted id list is a permutation of the ids of the
existing items (whose ids are duplicate-free), Reorder succeeds, assigns
each item the 1-based position of its id in the submitted sequence, keeps
the item ids unchanged, and the resulting sort_order values are exactly
a permutation of 1..N — no duplicates, no gaps. -/
theorem reorder_permutation (items : List GalleryItem) (ids : List Nat)
    (hnd : (items.map GalleryItem.id).Nodup)
    (hperm : ids.Perm (items.map GalleryItem.id)) :
    ∃ out, reorderGallery items ids = .ok out ∧
      out.map GalleryItem.id = items.map GalleryItem.id ∧
      (∀ it ∈ out, it.sortOrder = ids.indexOf it.id + 1) ∧
      (out.map GalleryItem.sortOrder).Perm ((List.range items.length).map fun n => n + 1) := by
  have hb : ids.isPerm (items.map GalleryItem.id) = true := List.isPerm_iff.mpr hperm
  have hok : reorderGallery items ids =
      .ok (items.map fun it => { it with sortOrder := ids.indexOf it.id + 1 }) := by
    unfold reorderGallery
    rw [if_pos hb]
  refine ⟨_, hok, ?_, ?_, ?_⟩
  · rw [List.map_map]
    rfl
  · intro it hit
    obtain ⟨x, _, rfl⟩ := List.mem_map.mp hit
    rfl
  · have hidsnd : ids.Nodup := (hperm.nodup_iff).mpr hnd
    have hlen : ids.length = items.length := by
      rw [hperm.length_eq, List.length_map]
    have h1 : (items.map fun it => { it with sortOrder := ids.indexOf it.id + 1 }).map
        GalleryItem.sortOrder = (items.map GalleryItem.id).map (fun a => ids.indexOf a + 1) := by
      rw [List.map_map, List.map_map]
      rfl
    rw [h1]
    have h2 : ((items.map GalleryItem.id).map (fun a => ids.indexOf a + 1)).Perm
        (ids.map (fun a => ids.indexOf a + 1)) := (hperm.symm).map _
    have h3 : ids.map (fun a => ids.indexOf a + 1)
        = (List.range ids.length).map (fun n => n + 1) := by
      rw [← nodup_map_indexOf ids hidsnd, List.map_map]
      rfl
    rw [h3, hlen] at h2
    exact h2

/-- C8 (witness): reordering the two-item gallery with the reversed id
list [2, 1] succeeds and produces sort_order values that are a
permutation of 1..2. -/
theorem reorder_permutation_witness :
    ∃ out, reorderGallery [⟨1, 1, "u", none⟩, ⟨2, 2, "v", none⟩] [2, 1] = .ok out ∧
      out.map GalleryItem.id = [⟨1, 1, "u", none⟩, ⟨2, 2, "v", none⟩].map GalleryItem.id ∧
      (∀ it ∈ out, it.sortOrder = [2, 1].indexOf it.id + 1) ∧
      (out.map GalleryItem.sortOrder).Perm
        ((List.range ([⟨1, 1, "u", none⟩, ⟨2, 2, "v", none⟩] :
            List GalleryItem).length).map fun n => n + 1) :=
  reorder_permutation [⟨1, 1, "u", none⟩, ⟨2, 2, "v", none⟩] [2, 1]
    (by decide) (List.isPerm_iff.mp (by decide))

/-- C9: when the submitted id list is not a permutation of the ids of the
existing items — in particular when an existing id is missing from the
request or the request holds an id that is not a current item — Reorder
fails with idSetMismatch and the gallery state is unchanged. -/
theorem reorder_mismatch (items : List GalleryItem) (ids : List Nat)
    (h : ¬ ids.Perm (items.map GalleryItem.id)) :
    reorderGallery items ids = .error .idSetMismatch ∧
    applyReorder items ids = items := by
  have hb : ids.isPerm (items.map GalleryItem.id) = false := by
    cases hh : ids.isPerm (items.map GalleryItem.id)
    · rfl
    · exact absurd (List.isPerm_iff.mp hh) h
  have herr : reorderGallery items ids = .error .idSetMismatch := by
    unfold reorderGallery
    rw [if_neg (by rw [hb]; exact Bool.false_ne_true)]
  refine ⟨herr, ?_⟩
  unfold applyReorder
  rw [herr]

/-- C9 (witness): submitting id list [2] against the one-item gallery
whose only id is 1 fails and leaves the gallery unchanged. -/
theorem reorder_mismatch_witness :
    reorderGallery [⟨1, 1, "u", none⟩] [2] = .error .idSetMismatch ∧
    applyReorder [⟨1, 1, "u", none⟩] [2] = [⟨1, 1, "u", none⟩] :=
  reorder_mismatch [⟨1, 1, "u", none⟩] [2]
    (fun hp => absurd (List.isPerm_iff.mpr hp) (by decide))
